import Mathlib

/-!
Verification of the lazy-loading repository (two FastAPI demo variants).

The repository holds two small Python programs:
  * `src/using-one-request-sse/main_sse.py` — the Streaming Variant: an async
    generator `stream_rows` that yields three server-sent events
    (`fast`, `slow`, `done`) over a single connection, with a `finally`
    block that logs when the generator is closed.
  * `src/using-two-requests/main.py` — the Polling Variant: `GET /rows`
    returns a batch of 10 rows with fast attributes and schedules a
    background task per row; `GET /slow-value/{row_id}` polls an in-memory
    dict `slow_results` that the background tasks fill in.

This file shallowly embeds both programs and settles the specification's
claims about them.
-/

namespace LazyLoading

/-! ## JSON serialization model

Mirrors Python `json.dumps` with its default separators `", "` and `": "`
on the concrete values serialized by the programs (objects whose values
are ints, strings, floats rendered as decimals, or null). -/

/-- A JSON object: the `json.dumps` rendering of a Python dict with the given
key/value pairs, values already rendered. -/
def jsonObj (fields : List (String × String)) : String :=
  "\x7b" ++ String.intercalate ", " (fields.map (fun p => "\"" ++ p.1 ++ "\": " ++ p.2)) ++ "\x7d"

/-- A JSON string literal (no escaping needed: the programs only serialize
strings without special characters). -/
def jsonStr (s : String) : String := "\"" ++ s ++ "\""

/-- A JSON array: the `json.dumps` rendering of a Python list, elements
already rendered. -/
def jsonArr (elems : List String) : String :=
  "[" ++ String.intercalate ", " elems ++ "]"

/-! ## Streaming Variant (`main_sse.py`) -/

/-- A row of the fast payload in `stream_rows`:
`{"id": i, "name": f"Item {i}", "price": i * 10}`. -/
structure FastRow where
  id : Nat
  name : String
  price : Nat
deriving DecidableEq, Repr

/-- A row of the slow payload in `stream_rows`:
`{"id": i, "slow_value": f"Computed-{i}"}`. -/
structure SlowRow where
  id : Nat
  slow_value : String
deriving DecidableEq, Repr

/-- `fast_rows` from `stream_rows`: the list comprehension
`[{"id": i, "name": f"Item {i}", "price": i * 10} for i in range(1, 6)]`. -/
def fast_rows : List FastRow :=
  (List.range' 1 5).map (fun i => { id := i, name := "Item " ++ toString i, price := i * 10 })

/-- `slow_values` from `stream_rows`: the list comprehension
`[{"id": i, "slow_value": f"Computed-{i}"} for i in range(1, 6)]`. -/
def slow_values : List SlowRow :=
  (List.range' 1 5).map (fun i => { id := i, slow_value := "Computed-" ++ toString i })

/-- `json.dumps` of one fast row (dict key order: id, name, price). -/
def dumpsFastRow (r : FastRow) : String :=
  jsonObj [("id", toString r.id), ("name", jsonStr r.name), ("price", toString r.price)]

/-- `json.dumps` of the fast-row list. -/
def dumpsFastRows (rs : List FastRow) : String := jsonArr (rs.map dumpsFastRow)

/-- `json.dumps` of one slow row (dict key order: id, slow_value). -/
def dumpsSlowRow (r : SlowRow) : String :=
  jsonObj [("id", toString r.id), ("slow_value", jsonStr r.slow_value)]

/-- `json.dumps` of the slow-row list. -/
def dumpsSlowRows (rs : List SlowRow) : String := jsonArr (rs.map dumpsSlowRow)

/-- The kind tag of a server-sent event emitted by `stream_rows`. -/
inductive EvKind
  | fast
  | slow
  | done
deriving DecidableEq, Repr

/-- The wire name of an event kind. -/
def EvKind.tag : EvKind → String
  | .fast => "fast"
  | .slow => "slow"
  | .done => "done"

/-- One event of the stream: its kind and its `data:` payload text. -/
structure Event where
  kind : EvKind
  data : String
deriving DecidableEq, Repr

/-- The three events `stream_rows` yields, in program order:
the `fast` event with `json.dumps(fast_rows)`, the `slow` event with
`json.dumps(slow_values)` after the simulated delay, and the `done` event
with the literal text `finished`. -/
def stream_rows_events : List Event :=
  [ { kind := .fast, data := dumpsFastRows fast_rows },
    { kind := .slow, data := dumpsSlowRows slow_values },
    { kind := .done, data := "finished" } ]

/-- The f-string wire encoding used by each `yield` in `stream_rows`:
`f"event: {kind}\ndata: {payload}\n\n"`. -/
def encodeEvent (e : Event) : String :=
  "event: " ++ e.kind.tag ++ "\ndata: " ++ e.data ++ "\n\n"

/-- The exact strings `stream_rows` yields, in order. -/
def stream_rows_yields : List String := stream_rows_events.map encodeEvent

/-! ### Generator lifecycle of `stream_rows`

`stream_rows` is a Python async generator whose whole body sits inside
`try: ... finally: <finalization log>`.  Python's runtime semantics:
once iteration of a generator has started, the `finally` block runs
exactly once — when the body finishes normally, when the consumer closes
the generator at a `yield` (client disconnect), or when an exception such
as `asyncio.CancelledError` is raised at the `await asyncio.sleep(3)`
suspension between the `fast` and the `slow` events.  We embed these exit
paths explicitly. -/

/-- An exit path of a started `stream_rows` iteration: normal completion,
consumer disconnect after having consumed `k` events, or cancellation
raised during the slow-phase `await asyncio.sleep(3)`. -/
inductive ExitMode
  | completed
  | disconnectAfter (k : Nat)
  | cancelledDuringSleep
deriving DecidableEq, Repr

/-- An observable step of a generator run: an event was yielded, or the
`finally` block (the finalization log) ran. -/
inductive GenStep
  | yielded (e : Event)
  | finalized
deriving DecidableEq, Repr

/-- The trace of one `stream_rows` run under an exit mode, per Python
generator semantics: yields up to the exit point, then the `finally`
block.  On `disconnectAfter k` the generator is closed at its next
suspension, so exactly the first `min k 3` events were yielded; on
cancellation during the sleep only the `fast` event was yielded. -/
def stream_rows_run : ExitMode → List GenStep
  | .completed => stream_rows_events.map GenStep.yielded ++ [GenStep.finalized]
  | .disconnectAfter k => (stream_rows_events.take k).map GenStep.yielded ++ [GenStep.finalized]
  | .cancelledDuringSleep =>
      [GenStep.yielded { kind := .fast, data := dumpsFastRows fast_rows }, GenStep.finalized]

end LazyLoading

namespace LazyLoading

/-! ## Polling Variant (`main.py`) -/

/-- Round half to even, the behavior of Python `round` on the exact value
(floats are modelled by rationals throughout). -/
def roundHalfEven (x : ℚ) : ℤ :=
  let f := x.floor
  let r := x - (f : ℚ)
  if r < 1 / 2 then f
  else if 1 / 2 < r then f + 1
  else if f % 2 = 0 then f else f + 1

/-- Python `round(x, 2)`: round to two decimal places, half to even. -/
def round2 (x : ℚ) : ℚ := (roundHalfEven (x * 100) : ℚ) / 100

/-- A row of the `GET /rows` response:
`{"id": i, "name": f"Item {i}", "price": round(random.random() * 100, 2), "slow_value": None}`. -/
structure Row where
  id : ℤ
  name : String
  price : ℚ
  slow_value : Option String
deriving DecidableEq, Repr

/-- `slow_results`, the in-memory dict mapping a row identifier to its
computed slow value; `none` models an absent key. -/
def SlowResultStore : Type := ℤ → Option String

/-- The empty initial `slow_results = {}`. -/
def emptyStore : SlowResultStore := fun _ => none

/-- `compute_slow_value(row_id)`: after sleeping `random.uniform(2, 5)`
seconds (the drawn `delay` does not influence the written value), writes
`f"SlowValue-{row_id}"` into `slow_results` at key `row_id`. -/
def compute_slow_value (_delay : ℚ) (row_id : ℤ) (s : SlowResultStore) : SlowResultStore :=
  fun k => if k = row_id then some ("SlowValue-" ++ toString row_id) else s k

/-- `get_rows`: for each `i in range(1, 11)` appends the row
`{"id": i, "name": f"Item {i}", "price": round(random.random() * 100, 2),
"slow_value": None}` and schedules `compute_slow_value(i)` as a background
task.  `draw i` models the `random.random()` call of iteration `i` (a
value in `[0, 1)`); the second component is the list of row identifiers
the scheduled background tasks are keyed by, in scheduling order. -/
def get_rows (draw : Nat → ℚ) : List Row × List ℤ :=
  ((List.range' 1 10).map (fun (i : Nat) =>
      { id := (i : ℤ), name := "Item " ++ toString i,
        price := round2 (draw i * 100), slow_value := none }),
   (List.range' 1 10).map (fun (i : Nat) => (i : ℤ)))

/-- The JSON body of `GET /slow-value/{row_id}`. -/
structure SlowValueResponse where
  id : ℤ
  slow_value : Option String
deriving DecidableEq, Repr

/-- `get_slow_value(row_id)`: returns
`{"id": row_id, "slow_value": slow_results.get(row_id)}`; the store is
returned unchanged because the handler only calls `dict.get`. -/
def get_slow_value (s : SlowResultStore) (row_id : ℤ) : SlowValueResponse × SlowResultStore :=
  ({ id := row_id, slow_value := s row_id }, s)

end LazyLoading

namespace LazyLoading

/-- C1: For every completed run of the Streaming Variant producer
`stream_rows`, the sequence of event kinds emitted is exactly
`[fast, slow, done]`: `fast` precedes `slow`, `slow` precedes `done`, and
no event is skipped or reordered. -/
theorem stream_rows_event_order :
    stream_rows_events.map Event.kind = [EvKind.fast, EvKind.slow, EvKind.done] := by
  decide

/-- C2: Every string `stream_rows` yields is a self-delimited block
`event: <kind>\ndata: <payload>\n\n`, where the `fast` payload is the JSON
array of the `{id, name, price}` objects, the `slow` payload is the JSON
array of the `{id, slow_value}` objects, and the `done` payload is the
literal text `finished`. -/
theorem stream_rows_wire_format :
    stream_rows_yields =
      [ "event: fast\ndata: " ++
          jsonArr (fast_rows.map (fun r =>
            jsonObj [("id", toString r.id), ("name", jsonStr r.name),
                     ("price", toString r.price)])) ++ "\n\n",
        "event: slow\ndata: " ++
          jsonArr (slow_values.map (fun r =>
            jsonObj [("id", toString r.id), ("slow_value", jsonStr r.slow_value)])) ++ "\n\n",
        "event: done\ndata: finished\n\n" ] := by
  rfl

/-- C3: The finalization step of `stream_rows` (its `finally` block)
executes exactly once — and last — on every exit path: normal completion,
consumer disconnect after any number of consumed events, or cancellation
during the slow-phase suspension. -/
theorem stream_rows_finalizes_once (m : ExitMode) :
    (stream_rows_run m).count GenStep.finalized = 1 ∧
    (stream_rows_run m).getLast? = some GenStep.finalized := by
  cases m with
  | completed => exact ⟨by decide, by decide⟩
  | disconnectAfter k =>
      rcases k with _ | _ | _ | k
      · exact ⟨by decide, by decide⟩
      · exact ⟨by decide, by decide⟩
      · exact ⟨by decide, by decide⟩
      · have hlen : stream_rows_events.length = 3 := rfl
        have h : stream_rows_events.take (k + 1 + 1 + 1) = stream_rows_events :=
          List.take_of_length_le (by rw [hlen]; omega)
        simp only [stream_rows_run, h]
        exact ⟨by decide, by decide⟩
  | cancelledDuringSleep => exact ⟨by decide, by decide⟩

/-- C10: The Streaming Variant payloads are fully deterministic: for every
`i` in `1..5` the fast entry is `{id: i, name: "Item i", price: i*10}` and
the slow entry is `{id: i, slow_value: "Computed-i"}`; in particular the
slow-value text follows the `Computed-{i}` pattern, not the Polling
Variant's `SlowValue-{id}` pattern. -/
theorem stream_payloads_deterministic :
    fast_rows =
      [ { id := 1, name := "Item 1", price := 10 },
        { id := 2, name := "Item 2", price := 20 },
        { id := 3, name := "Item 3", price := 30 },
        { id := 4, name := "Item 4", price := 40 },
        { id := 5, name := "Item 5", price := 50 } ] ∧
    slow_values =
      [ { id := 1, slow_value := "Computed-1" },
        { id := 2, slow_value := "Computed-2" },
        { id := 3, slow_value := "Computed-3" },
        { id := 4, slow_value := "Computed-4" },
        { id := 5, slow_value := "Computed-5" } ] ∧
    (∀ r ∈ slow_values, r.slow_value ≠ "SlowValue-" ++ toString r.id) := by
  refine ⟨by decide, by decide, by decide⟩

/-- C4: Row identifiers are the dense integers `1..n` in both variants
(`n = 5` streaming, `n = 10` polling), and the identifier set of the
streaming fast payload equals that of the slow payload, namely `{1..5}`. -/
theorem row_ids_dense (draw : Nat → ℚ) :
    (get_rows draw).1.map Row.id = [1, 2, 3, 4, 5, 6, 7, 8, 9, 10] ∧
    fast_rows.map FastRow.id = [1, 2, 3, 4, 5] ∧
    slow_values.map SlowRow.id = [1, 2, 3, 4, 5] ∧
    (fast_rows.map FastRow.id).toFinset = (slow_values.map SlowRow.id).toFinset ∧
    (fast_rows.map FastRow.id).toFinset = Finset.Icc 1 5 := by
  exact ⟨rfl, by decide, by decide, by decide, by decide⟩

/-- C5: `get_rows` returns a batch of exactly 10 rows, each with
`slow_value` null, and schedules exactly one background task per row,
keyed by that row's identifier (the task-key list equals the row-id list);
the batch carries nulls regardless of any computed task result. -/
theorem get_rows_contract (draw : Nat → ℚ) :
    (get_rows draw).1.length = 10 ∧
    (∀ r ∈ (get_rows draw).1, r.slow_value = none) ∧
    (get_rows draw).2 = (get_rows draw).1.map Row.id := by
  refine ⟨rfl, ?_, rfl⟩
  intro r hr
  simp only [get_rows, List.mem_map] at hr
  obtain ⟨i, _, rfl⟩ := hr
  rfl

/-- `Rat.floor` agrees with the floor of the order structure. -/
theorem rat_floor_eq_intFloor (x : ℚ) : x.floor = ⌊x⌋ :=
  (Rat.floor_def' x).trans Rat.floor_def.symm

/-- Evaluation of `round2` at the draw 0 scaled by 100. -/
theorem round2_at_zero : round2 ((0 : ℚ) * 100) = 0 := by
  unfold round2 roundHalfEven
  rw [rat_floor_eq_intFloor]
  norm_num

/-- Evaluation of `round2` at the draw 1/2 scaled by 100. -/
theorem round2_at_half : round2 ((1 : ℚ) / 2 * 100) = 50 := by
  unfold round2 roundHalfEven
  rw [rat_floor_eq_intFloor]
  norm_num

/-- The prices computed from the draws 0 and 1/2 differ. -/
theorem round2_draws_ne : round2 ((0 : ℚ) * 100) ≠ round2 ((1 : ℚ) / 2 * 100) := by
  rw [round2_at_zero, round2_at_half]
  norm_num

/-- C6 counterexample: the claim that both fast attributes (`name` and
`price`) are regenerated with fresh random values is false: two runs of
`get_rows` with different random draws (constant 0 versus constant 1/2)
produce identical names for every row identifier. -/
theorem get_rows_name_not_random :
    (fun _ : Nat => (0 : ℚ)) ≠ (fun _ : Nat => (1 : ℚ) / 2) ∧
    ((get_rows (fun _ => 0)).1.map Row.name =
      (get_rows (fun _ => (1 : ℚ) / 2)).1.map Row.name) := by
  constructor
  · intro h
    have h0 := congrFun h 0
    norm_num at h0
  · simp only [get_rows, List.map_map]
    rfl

/-- C6 amended: in the Polling Variant only the `price` fast attribute is
randomly generated — regenerated from the request's fresh draw — while the
`name` is the deterministic `Item {i}`: two runs whose draws round to
different prices at a row yield different prices but the same name there. -/
theorem get_rows_price_random_name_fixed (d1 d2 : Nat → ℚ) (i : Nat)
    (hi : i ∈ List.range' 1 10)
    (hd : round2 (d1 i * 100) ≠ round2 (d2 i * 100)) :
    ∃ r1 ∈ (get_rows d1).1, ∃ r2 ∈ (get_rows d2).1,
      r1.id = (i : ℤ) ∧ r2.id = (i : ℤ) ∧ r1.name = r2.name ∧ r1.price ≠ r2.price := by
  refine ⟨_, List.mem_map_of_mem _ hi, _, List.mem_map_of_mem _ hi, rfl, rfl, rfl, hd⟩

/-- C6 amended, witness: at draws constant 0 and constant 1/2 and row 1,
the two runs give the same name and different prices. -/
theorem get_rows_price_random_name_fixed_witness :
    ∃ r1 ∈ (get_rows (fun _ => 0)).1, ∃ r2 ∈ (get_rows (fun _ => (1 : ℚ) / 2)).1,
      r1.id = (1 : ℤ) ∧ r2.id = (1 : ℤ) ∧ r1.name = r2.name ∧ r1.price ≠ r2.price :=
  get_rows_price_random_name_fixed (fun _ => 0) (fun _ => (1 : ℚ) / 2) 1
    (by decide) round2_draws_ne

/-- C7: for every row identifier, `compute_slow_value` (after its delay)
writes exactly `SlowValue-{id}` at key `id`, so a subsequent
`get_slow_value` for `id` returns that non-null slow value. -/
theorem compute_then_fetch (delay : ℚ) (row_id : ℤ) (s : SlowResultStore) :
    compute_slow_value delay row_id s row_id = some ("SlowValue-" ++ toString row_id) ∧
    (get_slow_value (compute_slow_value delay row_id s) row_id).1 =
      { id := row_id, slow_value := some ("SlowValue-" ++ toString row_id) } := by
  constructor
  · simp [compute_slow_value]
  · simp [get_slow_value, compute_slow_value]

/-- C8: for every integer identifier with no entry in the store — not yet
computed or never scheduled — `get_slow_value` returns
`{id, slow_value: null}` with no distinct error. -/
theorem get_slow_value_missing (s : SlowResultStore) (row_id : ℤ)
    (h : s row_id = none) :
    (get_slow_value s row_id).1 = { id := row_id, slow_value := none } := by
  simp [get_slow_value, h]

/-- C8 witness: on the empty store and the never-scheduled identifier -7,
the response is `{id: -7, slow_value: null}`. -/
theorem get_slow_value_missing_witness :
    (get_slow_value emptyStore (-7)).1 = { id := -7, slow_value := none } :=
  get_slow_value_missing emptyStore (-7) rfl

/-- C9: `get_slow_value` is read-only and idempotent: it leaves the store
unchanged, and a second call with the same identifier on the resulting
store returns the same response. -/
theorem get_slow_value_readonly (s : SlowResultStore) (row_id : ℤ) :
    (get_slow_value s row_id).2 = s ∧
    (get_slow_value (get_slow_value s row_id).2 row_id).1 =
      (get_slow_value s row_id).1 := by
  exact ⟨rfl, rfl⟩

end LazyLoading
